import Mathlib

/-!
Verification development for the bulk email sender in `src/app.py`.

The Python program is shallowly embedded here.  Python strings are modelled
as `List Char` in the recipient-parsing layer (where the claims are about
character-level splitting and trimming) and as `String` in the
message-building and sending layer (where strings are only compared).
External effects (the pandas CSV reader, the SMTP library, the system MIME
table) are modelled as explicit environments whose fields record the outcome
of each effectful call; the control flow around those calls is translated
from the source.
-/

/-! ## Python string primitives (character-list level) -/

/-- Python `str.strip()`: remove leading and trailing whitespace. -/
def pyStrip (s : List Char) : List Char :=
  ((s.dropWhile Char.isWhitespace).reverse.dropWhile Char.isWhitespace).reverse

/-- Python `str.replace(a, b)` for single-character arguments. -/
def replaceChar (a b : Char) (s : List Char) : List Char :=
  s.map fun c => if c = a then b else c

/-- Python `str.split(sep)` for a single-character separator, generalized to a
predicate on characters.  As in Python, empty pieces are kept and the result
is never the empty list (splitting the empty string yields one empty piece). -/
def pySplitP (p : Char → Bool) : List Char → List (List Char)
  | [] => [[]]
  | c :: rest =>
    if p c then [] :: pySplitP p rest
    else
      match pySplitP p rest with
      | [] => [[c]]
      | q :: qs => (c :: q) :: qs

/-- Python `str.splitlines()`, restricted to the line boundaries LF, CRLF and
CR.  A CR directly followed by an LF contributes nothing of its own: the pair
forms one boundary, handled at the LF.  As in Python, a trailing line boundary
does not produce a final empty line. -/
def pySplitlines : List Char → List (List Char)
  | [] => []
  | c :: rest =>
    if c = '\r' then
      match rest with
      | '\n' :: _ => pySplitlines rest
      | _ => [] :: pySplitlines rest
    else if c = '\n' then [] :: pySplitlines rest
    else
      match pySplitlines rest with
      | [] => [[c]]
      | q :: qs => (c :: q) :: qs

/-- The characters other than LF that Python `str.splitlines()` treats as line
boundaries.  The embedding of `splitlines` above covers CR and CRLF and is
used only on inputs free of all of these characters. -/
def extraLineBreakChars : List Char :=
  ['\r', '\x0b', '\x0c', '\x1c', '\x1d', '\x1e', '\x85', '\u2028', '\u2029']

/-- The list comprehension `[e.strip() for e in L if e.strip()]` common to both
text parsers: strip every piece and keep the non-empty results. -/
def stripNE (L : List (List Char)) : List (List Char) :=
  (L.map pyStrip).filter (fun e => !e.isEmpty)

/-! ## Recipient parsing (src/app.py, `parse_recipients_from_text` and
`parse_recipients_from_csv`) -/

/-- Translation of `parse_recipients_from_text` (src/app.py lines 51-55):
replace every semicolon by a comma, then every newline by a comma, split on
commas, strip each piece and keep the non-empty ones. -/
def parse_recipients_from_text (text : List Char) : List (List Char) :=
  stripNE (pySplitP (fun c => c == ',') (replaceChar '\n' ',' (replaceChar ';' ',' text)))

/-- Abstraction of a successfully parsed pandas data frame: an ordered list of
columns, each a column name paired with its cells.  A cell is `none` when it is
missing (pandas `NaN`; note that `pandas.read_csv` reads an empty CSV field as
`NaN`), otherwise the cell's content already rendered as a string. -/
structure DataFrame where
  cols : List (List Char × List (Option (List Char)))
deriving DecidableEq

/-- The character list of the literal string `email` used for the
case-insensitive column lookup. -/
def emailChars : List Char := ['e', 'm', 'a', 'i', 'l']

/-- Python `str.lower()` character by character. -/
def lowerChars (s : List Char) : List Char := s.map Char.toLower

/-- Translation of `df[col].dropna().astype(str).str.strip().tolist()`
(src/app.py lines 43 and 47): drop missing cells, stringify (identity on the
already-stringified cells of the model) and strip each remaining cell. -/
def cleanColumn (cells : List (Option (List Char))) : List (List Char) :=
  (cells.filterMap id).map pyStrip

/-- Translation of the column-selection step of `parse_recipients_from_csv`
(src/app.py lines 40-49).  Python builds the dict `{c.lower(): c}` over the
column names, in which a later column whose lowered name is `email` overwrites
an earlier one, so the selected column is the last one whose lowercase name is
`email`; when no such column exists the first column is used (`df.columns[0]`,
which exists for every successfully parsed frame; `none` models the exception
Python would raise on a frame with no columns). -/
def pandasSelect (df : DataFrame) : Option (List (List Char)) :=
  match (df.cols.filter (fun c => lowerChars c.1 == emailChars)).getLast? with
  | some c => some (cleanColumn c.2)
  | none => df.cols.head?.map fun c => cleanColumn c.2

/-- Outcomes of the effectful calls made by `parse_recipients_from_csv` on one
invocation: the comma-separated `pd.read_csv` attempt, the semicolon-separated
retry, and the UTF-8 decoding of the raw bytes (`none` when the call raises). -/
structure CsvEnv where
  parseComma : Option DataFrame
  parseSemicolon : Option DataFrame
  decoded : Option (List Char)
deriving DecidableEq

/-- Translation of the final plain-text fallback of `parse_recipients_from_csv`
(src/app.py line 38): `[e.strip() for e in text.replace(',', '\n').splitlines()
if e.strip()]`. -/
def csvFallbackParse (text : List Char) : List (List Char) :=
  stripNE (pySplitlines (replaceChar ',' '\n' text))

/-- Translation of `parse_recipients_from_csv` (src/app.py lines 27-49): try
the comma-separated tabular parse, then the semicolon-separated one, then fall
back to decoding the raw bytes and splitting the text; a decode failure
propagates (`none`). -/
def parse_recipients_from_csv (env : CsvEnv) : Option (List (List Char)) :=
  match env.parseComma with
  | some df => pandasSelect df
  | none =>
    match env.parseSemicolon with
    | some df => pandasSelect df
    | none => env.decoded.map csvFallbackParse

/-! ## Spec-side definitions used for comparison -/

/-- Separator predicate taken from the spec's words: commas, semicolons and
newlines delimit recipients in pasted text. -/
def isSepChar (c : Char) : Bool := c == ',' || c == ';' || c == '\n'

/-- Spec-side reading of the delimited-text parser: the non-empty trimmed
segments obtained by splitting the input on commas, semicolons and newlines,
in their original order. -/
def specSegments (t : List Char) : List (List Char) :=
  stripNE (pySplitP isSepChar t)

/-- Spec-side reading of the cell cleanup: drop missing and empty cells, trim
the remaining ones. -/
def specCleanColumn (cells : List (Option (List Char))) : List (List Char) :=
  ((cells.filter (fun x => !(x == none) && !(x == some ([] : List Char)))).filterMap id).map pyStrip

/-! ## Message building (src/app.py, `build_message`) -/

/-- One body part of a built message: its MIME subtype (`plain` or `html`) and
its textual content. -/
structure BodyPart where
  mimeSubtype : String
  content : String
deriving DecidableEq

/-- One attachment of a built message. -/
structure Attachment where
  maintype : String
  mimeSubtype : String
  filename : String
  data : List Nat
deriving DecidableEq

/-- Abstraction of Python's `EmailMessage` as far as this program uses it. -/
structure EmailMessage where
  fromAddr : String
  toAddr : String
  subject : String
  bodyParts : List BodyPart
  attachments : List Attachment
deriving DecidableEq

/-- The fixed fallback plain-text notice from src/app.py line 64. -/
def htmlFallbackNotice : String :=
  "This message contains HTML content. Please view in an HTML-capable client."

/-- Python `ctype.split('/', 1)`: the part before the first slash and the part
after it. -/
def splitSlash1 (s : String) : String × String :=
  ((s.toList.takeWhile (fun c => c ≠ '/')).asString,
   ((s.toList.dropWhile (fun c => c ≠ '/')).drop 1).asString)

/-- Translation of the per-attachment step of `build_message` (src/app.py
lines 70-75).  `guess` models `mimetypes.guess_type` (a system-dependent
table): it returns the inferred content type and content encoding for a
filename.  When the type is unknown or an encoding is reported, the generic
`application/octet-stream` type is used. -/
def mkAttachment (guess : String → Option String × Option String)
    (fn : String) (data : List Nat) : Attachment :=
  let g := guess fn
  let ctype : String :=
    match g.1, g.2 with
    | none, _ => "application/octet-stream"
    | some _, some _ => "application/octet-stream"
    | some c, none => c
  ⟨(splitSlash1 ctype).1, (splitSlash1 ctype).2, fn, data⟩

/-- Translation of the `for filename, data in attachments` loop of
`build_message`: each blob is attached to the message in turn. -/
def addAttachmentsLoop (guess : String → Option String × Option String)
    (msg : EmailMessage) : List (String × List Nat) → EmailMessage
  | [] => msg
  | (fn, d) :: rest =>
    addAttachmentsLoop guess
      { msg with attachments := msg.attachments ++ [mkAttachment guess fn d] } rest

/-- Translation of `build_message` (src/app.py lines 57-76).  The Python
truthiness tests `if body_html:` and `body_text or ...` become emptiness tests
on the corresponding strings. -/
def build_message (guess : String → Option String × Option String)
    (sender recipient subject body_text body_html : String)
    (attachments : List (String × List Nat)) : EmailMessage :=
  let baseParts : List BodyPart :=
    if body_html ≠ "" then
      [⟨"plain", if body_text ≠ "" then body_text else htmlFallbackNotice⟩,
       ⟨"html", body_html⟩]
    else
      [⟨"plain", if body_text ≠ "" then body_text else ""⟩]
  addAttachmentsLoop guess ⟨sender, recipient, subject, baseParts, []⟩ attachments

/-! ## Bulk sending (src/app.py, `send_bulk_emails`) -/

/-- One result record appended by `send_bulk_emails`. -/
structure SendResult where
  recipient : Option String
  status : String
  error : String
deriving DecidableEq

/-- How the SMTP session ends on one invocation: the connection was never
established, it was established but never closed (the path where login raises
after a successful connect returns without any cleanup), it was closed by a
successful `server.quit()`, or `quit` raised and `server.close()` forced the
transport shut. -/
inductive SessionEnd
  | neverOpened
  | leakedOpen
  | closedQuit
  | closedForce
deriving DecidableEq

/-- Outcomes of the effectful SMTP calls made during one invocation of
`send_bulk_emails`: the connect step (`SMTP_SSL`, or `SMTP` plus `starttls`),
the `login` call, the combined build-and-`send_message` step for the attempt at
each position of the recipient list (SMTP is stateful, so outcomes are indexed
by position), and whether `server.quit()` succeeds.  A `some e` records the
raised exception's description `str(e)`. -/
structure SmtpEnv where
  connectErr : Option String
  loginErr : Option String
  sendErr : Nat → Option String
  quitOk : Bool

/-- The result record produced for the recipient at position `i`: `sent` with
empty error text on success, `failed` with the exception's description on a
build-or-transmit failure. -/
def mkRes (env : SmtpEnv) (i : Nat) (r : String) : SendResult :=
  match env.sendErr i with
  | none => ⟨some r, "sent", ""⟩
  | some e => ⟨some r, "failed", e⟩

/-- The per-recipient loop of `send_bulk_emails` (src/app.py lines 96-102),
carrying the position of the current attempt. -/
def sendLoop (env : SmtpEnv) : Nat → List String → List SendResult
  | _, [] => []
  | i, r :: rest => mkRes env i r :: sendLoop env (i + 1) rest

/-- Everything observable about one invocation of `send_bulk_emails`: the
returned records, the recipients for which a build-or-transmit attempt was
made, whether a connection attempt was made at all, and how the session ended. -/
structure BatchOutcome where
  results : List SendResult
  attempted : List String
  connectAttempted : Bool
  sessionEnd : SessionEnd

/-- Translation of `send_bulk_emails` (src/app.py lines 78-108).  A connect or
login failure is caught and returns the single sentinel record; on the login
failure the already-open connection is simply abandoned.  After a successful
login every recipient is processed by the loop, and the `finally` block quits
the session, force-closing the transport when `quit` itself raises. -/
def send_bulk_emails (env : SmtpEnv) (recipients : List String) : BatchOutcome :=
  match env.connectErr with
  | some e => ⟨[⟨none, "error", e⟩], [], true, .neverOpened⟩
  | none =>
    match env.loginErr with
    | some e => ⟨[⟨none, "error", e⟩], [], true, .leakedOpen⟩
    | none =>
      ⟨sendLoop env 0 recipients, recipients, true,
       if env.quitOk then .closedQuit else .closedForce⟩

/-! ## Concrete fixtures used by witnesses and counterexamples -/

/-- An environment in which the connection itself fails. -/
def smtpEnvConnFail : SmtpEnv :=
  ⟨some "connection refused", none, fun _ => none, true⟩

/-- An environment in which the connection succeeds but login fails. -/
def smtpEnvLoginFail : SmtpEnv :=
  ⟨none, some "535 authentication failed", fun _ => none, true⟩

/-- An environment in which everything succeeds. -/
def smtpEnvAllOk : SmtpEnv :=
  ⟨none, none, fun _ => none, true⟩

/-- An environment in which sending works but `server.quit()` raises. -/
def smtpEnvQuitFail : SmtpEnv :=
  ⟨none, none, fun _ => none, false⟩

/-- An environment in which the second attempt (position 1) fails. -/
def smtpEnvSecondFails : SmtpEnv :=
  ⟨none, none, fun i => if i = 1 then some "550 mailbox unavailable" else none, true⟩

/-- An environment in which every send raises an exception whose description
is the empty string (as `str(e)` is for a bare `Exception()`). -/
def smtpEnvEmptyMsg : SmtpEnv :=
  ⟨none, none, fun _ => some "", true⟩

/-- A data frame with a `Name` column followed by an `Email` column. -/
def dfWithEmail : DataFrame :=
  ⟨[(['N', 'a', 'm', 'e'], [some ['x'], some ['y']]),
    (['E', 'm', 'a', 'i', 'l'], [some [' ', 'a', '@', 'b'], none])]⟩

/-- A CSV environment whose comma-separated parse succeeds with
`dfWithEmail`. -/
def csvEnvTable : CsvEnv := ⟨some dfWithEmail, none, none⟩

/-- A CSV environment in which both tabular parses fail and the raw bytes
decode to the text `a;b`. -/
def csvEnvSemis : CsvEnv := ⟨none, none, some ['a', ';', 'b']⟩

/-- A CSV environment in which both tabular parses fail and the raw bytes
decode to the text `x@y`. -/
def csvEnvPlain : CsvEnv := ⟨none, none, some ['x', '@', 'y']⟩

/-- A MIME guess table for the witness: knows `.pdf`, reports a compression
encoding for `.gz`, and fails on anything else. -/
def guessFixture (fn : String) : Option String × Option String :=
  if fn = "doc.pdf" then (some "application/pdf", none)
  else if fn = "doc.txt.gz" then (some "text/plain", some "gzip")
  else (none, none)

/-! ## Helper lemmas about the string primitives -/

theorem pySplitP_ne_nil (p : Char → Bool) (s : List Char) : pySplitP p s ≠ [] := by
  cases s with
  | nil => simp [pySplitP]
  | cons c rest =>
    simp only [pySplitP]
    split
    · simp
    · split <;> simp

theorem replaceChar_cons (a b c : Char) (rest : List Char) :
    replaceChar a b (c :: rest) = (if c = a then b else c) :: replaceChar a b rest := rfl

theorem pySplitP_congr_mem {p q : Char → Bool} :
    ∀ {t : List Char}, (∀ c ∈ t, p c = q c) → pySplitP p t = pySplitP q t := by
  intro t
  induction t with
  | nil => intro _; rfl
  | cons c rest ih =>
    intro h
    have hc : p c = q c := h c (List.mem_cons_self c rest)
    have ht : pySplitP p rest = pySplitP q rest :=
      ih fun d hd => h d (List.mem_cons_of_mem c hd)
    simp only [pySplitP, hc, ht]

theorem pySplitP_replaceChar (p : Char → Bool) (a b : Char) (hb : p b = true) :
    ∀ t : List Char,
      pySplitP p (replaceChar a b t) = pySplitP (fun c => c == a || p c) t := by
  intro t
  induction t with
  | nil => rfl
  | cons c rest ih =>
    rw [replaceChar_cons]
    by_cases hca : c = a
    · subst hca
      simp [pySplitP, hb, ih]
    · have hbeq : (c == a) = false := by simp [hca]
      rw [if_neg hca]
      by_cases hpc : p c = true
      · simp [pySplitP, hpc, hbeq, ih]
      · have hpc2 : p c = false := by
          cases hval : p c
          · rfl
          · exact absurd hval hpc
        simp [pySplitP, hpc2, hbeq, ih]

theorem not_mem_replaceChar (a b x : Char) (hxb : x ≠ b) (t : List Char) (hx : x ∉ t) :
    x ∉ replaceChar a b t := by
  intro hm
  rcases List.mem_map.mp hm with ⟨c, hc, he⟩
  by_cases h : c = a
  · rw [if_pos h] at he
    exact hxb he.symm
  · rw [if_neg h] at he
    exact hx (he ▸ hc)

theorem pySplitlines_or :
    ∀ s : List Char, '\r' ∉ s →
      pySplitP (fun c => c == '\n') s = pySplitlines s ++ [[]] ∨
      pySplitP (fun c => c == '\n') s = pySplitlines s := by
  intro s
  induction s with
  | nil => intro _; left; rfl
  | cons c rest ih =>
    intro h
    have hcr : c ≠ '\r' := fun e => h (e ▸ List.mem_cons_self c rest)
    have hrest : '\r' ∉ rest := fun hm => h (List.mem_cons_of_mem c hm)
    by_cases hcn : c = '\n'
    · subst hcn
      rcases ih hrest with e | e
      · left; simp [pySplitP, pySplitlines, e]
      · right; simp [pySplitP, pySplitlines, e]
    · rcases ih hrest with e | e
      · cases hlr : pySplitlines rest with
        | nil =>
          right
          rw [hlr] at e
          simp [pySplitP, pySplitlines, hcn, hcr, e, hlr]
        | cons q qs =>
          left
          rw [hlr] at e
          simp [pySplitP, pySplitlines, hcn, hcr, e, hlr]
      · cases hlr : pySplitlines rest with
        | nil =>
          have hne := pySplitP_ne_nil (fun c => c == '\n') rest
          rw [e, hlr] at hne
          exact absurd rfl hne
        | cons q qs =>
          right
          rw [hlr] at e
          simp [pySplitP, pySplitlines, hcn, hcr, e, hlr]

theorem stripNE_append_nil (L : List (List Char)) : stripNE (L ++ [[]]) = stripNE L := by
  simp [stripNE, pyStrip]

theorem splitText_eq_splitSep (t : List Char) :
    pySplitP (fun c => c == ',') (replaceChar '\n' ',' (replaceChar ';' ',' t)) =
      pySplitP (fun c => c == ';' || (c == '\n' || c == ',')) t := by
  have s1 := pySplitP_replaceChar (fun c => c == ',') '\n' ',' rfl (replaceChar ';' ',' t)
  have s2 := pySplitP_replaceChar (fun c => c == '\n' || c == ',') ';' ',' rfl t
  rw [s1]
  exact s2

/-- C5: `parse_recipients_from_text` returns exactly the non-empty trimmed
segments obtained by splitting its input on commas, semicolons and newlines,
in their original order, and in particular its length is the number of such
segments; as a Lean function it is pure by construction. -/
theorem parse_text_returns_segments (t : List Char) :
    parse_recipients_from_text t = specSegments t ∧
    (parse_recipients_from_text t).length = (specSegments t).length := by
  have e4 : (fun c => c == ';' || (c == '\n' || c == ',')) = isSepChar := by
    funext c
    cases h1 : c == ';' <;> cases h2 : c == '\n' <;> cases h3 : c == ',' <;>
      simp [isSepChar, h1, h2, h3]
  have main : parse_recipients_from_text t = specSegments t := by
    unfold parse_recipients_from_text specSegments
    rw [splitText_eq_splitSep, e4]
  exact ⟨main, by rw [main]⟩

/-- C7 counterexample: when both tabular parses fail and the uploaded bytes
decode to the text `a;b`, the fallback of `parse_recipients_from_csv` keeps
`a;b` as a single address, while `parse_recipients_from_text` splits it at the
semicolon into two addresses. -/
theorem csv_fallback_differs_on_semicolon :
    parse_recipients_from_csv csvEnvSemis ≠
      some (parse_recipients_from_text ['a', ';', 'b']) := by decide

/-- C7 (amended): when both tabular parses fail, the fallback of
`parse_recipients_from_csv` agrees with `parse_recipients_from_text` on the
decoded text provided that text contains no semicolon and none of the line
boundary characters other than LF (the fallback splits only on commas and line
boundaries, while the text parser also splits on semicolons and only on LF). -/
theorem csv_fallback_refines_parse_text (env : CsvEnv) (t : List Char)
    (h1 : env.parseComma = none) (h2 : env.parseSemicolon = none)
    (h3 : env.decoded = some t) (h4 : ';' ∉ t)
    (h5 : ∀ c ∈ t, c ∉ extraLineBreakChars) :
    parse_recipients_from_csv env = some (parse_recipients_from_text t) := by
  have hr : '\r' ∉ t := fun hm => h5 '\r' hm (by decide)
  have hs : '\r' ∉ replaceChar ',' '\n' t :=
    not_mem_replaceChar ',' '\n' '\r' (by decide) t hr
  have e2 : pySplitP (fun c => c == '\n') (replaceChar ',' '\n' t) =
      pySplitP (fun c => c == ',' || c == '\n') t :=
    pySplitP_replaceChar (fun c => c == '\n') ',' '\n' rfl t
  have e4 : pySplitP (fun c => c == ';' || (c == '\n' || c == ',')) t =
      pySplitP (fun c => c == ',' || c == '\n') t := by
    refine pySplitP_congr_mem fun c hc => ?_
    have hne : c ≠ ';' := fun e => h4 (e ▸ hc)
    have hb : (c == ';') = false := by simp [hne]
    cases hn : c == '\n' <;> cases hcm : c == ',' <;> simp [hb, hn, hcm]
  have main : csvFallbackParse t = parse_recipients_from_text t := by
    unfold csvFallbackParse parse_recipients_from_text
    rw [splitText_eq_splitSep, e4, ← e2]
    rcases pySplitlines_or (replaceChar ',' '\n' t) hs with e | e
    · rw [e, stripNE_append_nil]
    · rw [e]
  simp [parse_recipients_from_csv, h1, h2, h3, main]

/-- C7 witness: a concrete run on decoded text free of semicolons. -/
theorem csv_fallback_refines_parse_text_w :
    (';' ∉ (['x', '@', 'y'] : List Char)) ∧
    parse_recipients_from_csv csvEnvPlain =
      some (parse_recipients_from_text ['x', '@', 'y']) :=
  ⟨by decide,
   csv_fallback_refines_parse_text csvEnvPlain ['x', '@', 'y'] rfl rfl rfl
     (by decide) (by decide)⟩

theorem specCleanColumn_eq_cleanColumn (cells : List (Option (List Char)))
    (h : ∀ x ∈ cells, x ≠ some ([] : List Char)) :
    specCleanColumn cells = cleanColumn cells := by
  induction cells with
  | nil => rfl
  | cons x rest ih =>
    have ht := ih fun y hy => h y (List.mem_cons_of_mem x hy)
    cases x with
    | none =>
      simpa [specCleanColumn, cleanColumn, List.filter_cons] using ht
    | some v =>
      have hv : v ≠ [] := by
        intro e
        exact h (some v) (List.mem_cons_self _ rest) (by rw [e])
      have h2 : ((some v : Option (List Char)) == some []) = false := by
        simp [hv]
      simpa [specCleanColumn, cleanColumn, List.filter_cons, h2] using ht

/-- C6: when a tabular parse of `parse_recipients_from_csv` succeeds, the
selected values come from a column whose name lowercases to `email` when one
exists, otherwise from the first column; missing and empty cells are dropped
(pandas represents an empty CSV field as a missing cell, so the cell lists of
a parsed frame never contain an explicit empty string) and the remaining cells
are stringified and trimmed. -/
theorem csv_selects_email_column (env : CsvEnv) (df : DataFrame)
    (h : env.parseComma = some df ∨ (env.parseComma = none ∧ env.parseSemicolon = some df))
    (hne : df.cols ≠ [])
    (hcells : ∀ c ∈ df.cols, ∀ x ∈ c.2, x ≠ some ([] : List Char)) :
    (∃ c ∈ df.cols, lowerChars c.1 = emailChars ∧
        parse_recipients_from_csv env = some (specCleanColumn c.2)) ∨
    ((∀ c ∈ df.cols, lowerChars c.1 ≠ emailChars) ∧
      ∃ c cs, df.cols = c :: cs ∧
        parse_recipients_from_csv env = some (specCleanColumn c.2)) := by
  have hdisp : parse_recipients_from_csv env = pandasSelect df := by
    rcases h with h | ⟨ha, hb⟩ <;> simp [parse_recipients_from_csv, *]
  rw [hdisp]
  cases hlast : (df.cols.filter (fun c => lowerChars c.1 == emailChars)).getLast? with
  | some c =>
    left
    have hmemf : c ∈ df.cols.filter (fun c => lowerChars c.1 == emailChars) := by
      obtain ⟨hne2, he⟩ := List.mem_getLast?_eq_getLast (Option.mem_def.mpr hlast)
      rw [he]
      exact List.getLast_mem hne2
    have hmem := (List.mem_filter.mp hmemf).1
    have hpred := (List.mem_filter.mp hmemf).2
    refine ⟨c, hmem, eq_of_beq hpred, ?_⟩
    rw [specCleanColumn_eq_cleanColumn c.2 (hcells c hmem)]
    simp only [pandasSelect]
    rw [hlast]
  | none =>
    right
    have hforall := List.filter_eq_nil_iff.mp (List.getLast?_eq_none_iff.mp hlast)
    constructor
    · intro c hc heq
      exact hforall c hc (by simp [heq])
    · obtain ⟨c, cs, hcons⟩ := List.exists_cons_of_ne_nil hne
      refine ⟨c, cs, hcons, ?_⟩
      have hcmem : c ∈ df.cols := hcons ▸ List.mem_cons_self c cs
      rw [specCleanColumn_eq_cleanColumn c.2 (hcells c hcmem)]
      simp only [pandasSelect]
      rw [hlast, hcons]
      rfl

/-- C6 witness: a concrete frame with a `Name` column followed by an `Email`
column; the `Email` column is selected. -/
theorem csv_selects_email_column_w :
    (∃ c ∈ dfWithEmail.cols, lowerChars c.1 = emailChars ∧
        parse_recipients_from_csv csvEnvTable = some (specCleanColumn c.2)) ∨
    ((∀ c ∈ dfWithEmail.cols, lowerChars c.1 ≠ emailChars) ∧
      ∃ c cs, dfWithEmail.cols = c :: cs ∧
        parse_recipients_from_csv csvEnvTable = some (specCleanColumn c.2)) :=
  csv_selects_email_column csvEnvTable dfWithEmail (Or.inl rfl) (by decide) (by decide)

/-! ## Message building theorems -/

theorem addAttachmentsLoop_bodyParts (guess : String → Option String × Option String) :
    ∀ (atts : List (String × List Nat)) (msg : EmailMessage),
      (addAttachmentsLoop guess msg atts).bodyParts = msg.bodyParts := by
  intro atts
  induction atts with
  | nil => intro msg; rfl
  | cons p rest ih =>
    intro msg
    cases p with
    | mk fn d => simpa [addAttachmentsLoop] using ih _

theorem addAttachmentsLoop_attachments (guess : String → Option String × Option String) :
    ∀ (atts : List (String × List Nat)) (msg : EmailMessage),
      (addAttachmentsLoop guess msg atts).attachments =
        msg.attachments ++ atts.map fun p => mkAttachment guess p.1 p.2 := by
  intro atts
  induction atts with
  | nil => intro msg; simp [addAttachmentsLoop]
  | cons p rest ih =>
    intro msg
    cases p with
    | mk fn d => simp [addAttachmentsLoop, ih]

/-- C4: the body parts of a built message are exactly one plain-text part equal
to the supplied plain body (possibly empty) when no HTML body is supplied, and
exactly two parts otherwise: the plain part (the supplied plain body, or the
fixed fallback notice when the plain body is empty) followed by the HTML body
as an alternative representation.  Attachments never change the body parts. -/
theorem build_message_body_policy (guess : String → Option String × Option String)
    (sender recipient subject body_text body_html : String)
    (atts : List (String × List Nat)) :
    (build_message guess sender recipient subject body_text body_html atts).bodyParts =
      if body_html = "" then [⟨"plain", body_text⟩]
      else
        [⟨"plain", if body_text = "" then htmlFallbackNotice else body_text⟩,
         ⟨"html", body_html⟩] := by
  unfold build_message
  rw [addAttachmentsLoop_bodyParts]
  by_cases hh : body_html = ""
  · by_cases ht : body_text = "" <;> simp [hh, ht]
  · by_cases ht : body_text = "" <;> simp [hh, ht]

/-- C8: attachments are attached in input order, one per input blob, each with
its original filename and data; the content type of each is the one inferred
from the filename by the MIME table, split at the first slash, except that a
failed inference or a reported content encoding yields the generic
`application/octet-stream` type. -/
theorem build_message_attachment_policy (guess : String → Option String × Option String)
    (sender recipient subject body_text body_html : String)
    (atts : List (String × List Nat)) :
    (build_message guess sender recipient subject body_text body_html atts).attachments =
      (atts.map fun p => mkAttachment guess p.1 p.2) ∧
    ((build_message guess sender recipient subject body_text body_html atts).attachments.map
        Attachment.filename) = atts.map Prod.fst ∧
    ((build_message guess sender recipient subject body_text body_html atts).attachments.map
        Attachment.data) = atts.map Prod.snd ∧
    (∀ fn d, ((guess fn).1 = none ∨ (guess fn).2 ≠ none) →
      mkAttachment guess fn d = ⟨"application", "octet-stream", fn, d⟩) ∧
    (∀ fn d ct, guess fn = (some ct, none) →
      mkAttachment guess fn d = ⟨(splitSlash1 ct).1, (splitSlash1 ct).2, fn, d⟩) := by
  have hmain :
      (build_message guess sender recipient subject body_text body_html atts).attachments =
        atts.map fun p => mkAttachment guess p.1 p.2 := by
    unfold build_message
    rw [addAttachmentsLoop_attachments]
    rfl
  refine ⟨hmain, ?_, ?_, ?_, ?_⟩
  · rw [hmain, List.map_map]
    rfl
  · rw [hmain, List.map_map]
    rfl
  · intro fn d hcase
    unfold mkAttachment
    rcases hg : guess fn with ⟨o1, o2⟩
    rcases hcase with h1 | h2
    · rw [hg] at h1
      subst h1
      rfl
    · rw [hg] at h2
      cases o1 with
      | none => rfl
      | some ct =>
        cases o2 with
        | none => exact absurd rfl h2
        | some enc => rfl
  · intro fn d ct hg
    unfold mkAttachment
    rw [hg]

/-- C8 witness: concrete attachments exercising the inferred type, the
content-encoding fallback and the unknown-type fallback. -/
theorem build_message_attachment_policy_w :
    mkAttachment guessFixture "doc.pdf" [1] =
      ⟨(splitSlash1 "application/pdf").1, (splitSlash1 "application/pdf").2, "doc.pdf", [1]⟩ ∧
    mkAttachment guessFixture "doc.txt.gz" [2] =
      ⟨"application", "octet-stream", "doc.txt.gz", [2]⟩ ∧
    mkAttachment guessFixture "unknown.xyz" [3] =
      ⟨"application", "octet-stream", "unknown.xyz", [3]⟩ :=
  ⟨(build_message_attachment_policy guessFixture "s" "r" "u" "" "" []).2.2.2.2
      "doc.pdf" [1] "application/pdf" (by decide),
   (build_message_attachment_policy guessFixture "s" "r" "u" "" "" []).2.2.2.1
      "doc.txt.gz" [2] (Or.inr (by decide)),
   (build_message_attachment_policy guessFixture "s" "r" "u" "" "" []).2.2.2.1
      "unknown.xyz" [3] (Or.inl (by decide))⟩

/-! ## Bulk sending theorems -/

theorem sendLoop_length (env : SmtpEnv) :
    ∀ (rs : List String) (k : Nat), (sendLoop env k rs).length = rs.length := by
  intro rs
  induction rs with
  | nil => intro k; rfl
  | cons r rest ih => intro k; simp [sendLoop, ih]

theorem sendLoop_getElem? (env : SmtpEnv) :
    ∀ (rs : List String) (k i : Nat),
      (sendLoop env k rs)[i]? = (rs[i]?).map fun r => mkRes env (k + i) r := by
  intro rs
  induction rs with
  | nil => intro k i; simp [sendLoop]
  | cons r rest ih =>
    intro k i
    cases i with
    | zero => simp [sendLoop]
    | succ n =>
      have harith : k + 1 + n = k + (n + 1) := by omega
      simp [sendLoop, ih (k + 1) n, harith]

/-- C1: when the connection and login succeed, `send_bulk_emails` returns one
record per input recipient in input order; the record at position `i` carries
the address of recipient `i` and is `sent` with empty error text or `failed`
with the captured description, determined only by that recipient's own
build-or-transmit outcome (`mkRes`); and every recipient of the list is
attempted regardless of other recipients' failures. -/
theorem bulk_send_one_result_per_recipient (env : SmtpEnv) (recipients : List String)
    (h1 : env.connectErr = none) (h2 : env.loginErr = none) :
    (send_bulk_emails env recipients).results.length = recipients.length ∧
    (∀ i r, recipients[i]? = some r →
      (send_bulk_emails env recipients).results[i]? = some (mkRes env i r)) ∧
    (send_bulk_emails env recipients).attempted = recipients := by
  have hred : (send_bulk_emails env recipients).results = sendLoop env 0 recipients ∧
      (send_bulk_emails env recipients).attempted = recipients := by
    simp [send_bulk_emails, h1, h2]
  refine ⟨?_, ?_, hred.2⟩
  · rw [hred.1]
    exact sendLoop_length env recipients 0
  · intro i r hi
    rw [hred.1, sendLoop_getElem? env recipients 0 i, hi]
    simp

/-- C1 witness: three recipients of which the second fails. -/
theorem bulk_send_one_result_per_recipient_w :
    (send_bulk_emails smtpEnvSecondFails ["a@x", "b@x", "c@x"]).results.length = 3 ∧
    (send_bulk_emails smtpEnvSecondFails ["a@x", "b@x", "c@x"]).results[1]? =
      some (mkRes smtpEnvSecondFails 1 "b@x") := by
  have h := bulk_send_one_result_per_recipient smtpEnvSecondFails ["a@x", "b@x", "c@x"] rfl rfl
  exact ⟨h.1, h.2.1 1 "b@x" rfl⟩

/-- C2: a connect or login failure makes `send_bulk_emails` return the single
sentinel record with absent recipient, status `error` and the failure's
description, and no recipient is attempted (no message is built or sent). -/
theorem bulk_send_failure_sentinel (env : SmtpEnv) (recipients : List String) (e : String)
    (h : env.connectErr = some e ∨ (env.connectErr = none ∧ env.loginErr = some e)) :
    (send_bulk_emails env recipients).results = [⟨none, "error", e⟩] ∧
    (send_bulk_emails env recipients).attempted = [] := by
  rcases h with h | ⟨h1, h2⟩ <;> simp [send_bulk_emails, *]

/-- C2 witness: a concrete failing connection. -/
theorem bulk_send_failure_sentinel_w :
    (send_bulk_emails smtpEnvConnFail ["a@x"]).results =
      [⟨none, "error", "connection refused"⟩] ∧
    (send_bulk_emails smtpEnvConnFail ["a@x"]).attempted = [] :=
  bulk_send_failure_sentinel smtpEnvConnFail ["a@x"] "connection refused" (Or.inl rfl)

/-- C3 counterexample: when the connection succeeds but login fails, the
handler at src/app.py lines 91-93 returns without any cleanup, so the opened
session is never closed on that exit path, contrary to the claim. -/
theorem session_not_closed_on_login_failure :
    smtpEnvLoginFail.connectErr = none ∧
    (send_bulk_emails smtpEnvLoginFail ["a@x"]).sessionEnd = SessionEnd.leakedOpen ∧
    (send_bulk_emails smtpEnvLoginFail ["a@x"]).sessionEnd ≠ SessionEnd.closedQuit ∧
    (send_bulk_emails smtpEnvLoginFail ["a@x"]).sessionEnd ≠ SessionEnd.closedForce :=
  ⟨rfl, rfl, by decide, by decide⟩

/-- C3 (amended): once login has succeeded the session is closed before the
function returns, by a graceful quit, or by force-closing the transport when
the quit itself fails; on the path where login fails after the connection was
opened the session is not closed. -/
theorem session_closed_after_login (env : SmtpEnv) (recipients : List String)
    (h1 : env.connectErr = none) (h2 : env.loginErr = none) :
    (send_bulk_emails env recipients).sessionEnd =
      if env.quitOk then SessionEnd.closedQuit else SessionEnd.closedForce := by
  simp [send_bulk_emails, h1, h2]

/-- C3 witness: a concrete run in which `quit` fails and the transport is
force-closed. -/
theorem session_closed_after_login_w :
    (send_bulk_emails smtpEnvQuitFail ["a@x"]).sessionEnd =
      if smtpEnvQuitFail.quitOk then SessionEnd.closedQuit else SessionEnd.closedForce :=
  session_closed_after_login smtpEnvQuitFail ["a@x"] rfl rfl

/-- C9 counterexample: with an empty recipient list the function still attempts
the connection, and when that attempt fails the returned sequence is the error
sentinel rather than empty. -/
theorem empty_recipients_still_connect :
    (send_bulk_emails smtpEnvConnFail []).connectAttempted = true ∧
    (send_bulk_emails smtpEnvConnFail []).results ≠ [] :=
  ⟨rfl, by decide⟩

/-- C9 (amended): an empty recipient list yields an empty result sequence when
connection and login succeed, but the connection is still attempted. -/
theorem empty_recipients_empty_results (env : SmtpEnv)
    (h1 : env.connectErr = none) (h2 : env.loginErr = none) :
    (send_bulk_emails env []).results = [] ∧
    (send_bulk_emails env []).connectAttempted = true := by
  simp [send_bulk_emails, h1, h2, sendLoop]

/-- C9 witness: a concrete all-succeeding environment. -/
theorem empty_recipients_empty_results_w :
    (send_bulk_emails smtpEnvAllOk []).results = [] ∧
    (send_bulk_emails smtpEnvAllOk []).connectAttempted = true :=
  empty_recipients_empty_results smtpEnvAllOk rfl rfl

/-- C10 counterexample: a build-or-transmit exception whose description is the
empty string (as `str(e)` is for a bare exception) produces a record with
status `failed` and empty error text, so an empty error string does not imply
status `sent`. -/
theorem record_empty_error_without_sent :
    (send_bulk_emails smtpEnvEmptyMsg ["a@x"]).results =
      [⟨some "a@x", "failed", ""⟩] ∧
    (("failed" : String) = "sent" → False) :=
  ⟨by decide, by decide⟩

theorem sendLoop_record_invariants (env : SmtpEnv) :
    ∀ (rs : List String) (k : Nat) (r : SendResult), r ∈ sendLoop env k rs →
      (r.status = "sent" ∨ r.status = "failed" ∨ r.status = "error") ∧
      (r.status = "sent" → r.error = "") ∧
      (r.recipient = none ↔ r.status = "error") ∧
      ((∀ i e, env.sendErr i = some e → e ≠ "") → (r.error = "" ↔ r.status = "sent")) := by
  intro rs
  induction rs with
  | nil => intro k r hr; simp [sendLoop] at hr
  | cons x rest ih =>
    intro k r hr
    rw [sendLoop] at hr
    rcases List.mem_cons.mp hr with h | h
    · subst h
      cases hse : env.sendErr k with
      | none =>
        have hrec : mkRes env k x = ⟨some x, "sent", ""⟩ := by simp [mkRes, hse]
        rw [hrec]
        exact ⟨Or.inl rfl, fun _ => rfl, by simp, fun _ => by simp⟩
      | some e =>
        have hrec : mkRes env k x = ⟨some x, "failed", e⟩ := by simp [mkRes, hse]
        rw [hrec]
        refine ⟨Or.inr (Or.inl rfl), by simp, by simp, ?_⟩
        intro hs
        have he : e ≠ "" := hs k e hse
        simp [he]
    · exact ih (k + 1) r h

/-- C10 (amended): every record returned by `send_bulk_emails` has status
`sent`, `failed` or `error`; its recipient is absent exactly when its status is
`error`, so every record for an attempted recipient carries that recipient's
address; status `sent` implies empty error text; and, provided every captured
exception description is non-empty, the error text is empty exactly when the
status is `sent`. -/
theorem result_record_invariants (env : SmtpEnv) (recipients : List String) :
    ∀ r ∈ (send_bulk_emails env recipients).results,
      (r.status = "sent" ∨ r.status = "failed" ∨ r.status = "error") ∧
      (r.status = "sent" → r.error = "") ∧
      (r.recipient = none ↔ r.status = "error") ∧
      ((∀ e, env.connectErr = some e → e ≠ "") →
        (∀ e, env.loginErr = some e → e ≠ "") →
        (∀ i e, env.sendErr i = some e → e ≠ "") →
        (r.error = "" ↔ r.status = "sent")) := by
  intro r hr
  cases hce : env.connectErr with
  | some e =>
    simp [send_bulk_emails, hce] at hr
    subst hr
    refine ⟨Or.inr (Or.inr rfl), by simp, by simp, ?_⟩
    intro hc _ _
    have he := hc e rfl
    simp [he]
  | none =>
    cases hle : env.loginErr with
    | some e =>
      simp [send_bulk_emails, hce, hle] at hr
      subst hr
      refine ⟨Or.inr (Or.inr rfl), by simp, by simp, ?_⟩
      intro _ hl _
      have he := hl e rfl
      simp [he]
    | none =>
      simp [send_bulk_emails, hce, hle] at hr
      have h := sendLoop_record_invariants env recipients 0 r hr
      exact ⟨h.1, h.2.1, h.2.2.1, fun _ _ hs => h.2.2.2 hs⟩

/-- C10 witness: the invariants at a concrete failed record of a run in which
the second recipient's transmission raises with a non-empty description. -/
theorem result_record_invariants_w :
    ((⟨some "b@x", "failed", "550 mailbox unavailable"⟩ : SendResult).status = "sent" ∨
      (⟨some "b@x", "failed", "550 mailbox unavailable"⟩ : SendResult).status = "failed" ∨
      (⟨some "b@x", "failed", "550 mailbox unavailable"⟩ : SendResult).status = "error") ∧
    ((⟨some "b@x", "failed", "550 mailbox unavailable"⟩ : SendResult).recipient = none ↔
      (⟨some "b@x", "failed", "550 mailbox unavailable"⟩ : SendResult).status = "error") ∧
    ((⟨some "b@x", "failed", "550 mailbox unavailable"⟩ : SendResult).error = "" ↔
      (⟨some "b@x", "failed", "550 mailbox unavailable"⟩ : SendResult).status = "sent") := by
  have hsend : ∀ i e, smtpEnvSecondFails.sendErr i = some e → e ≠ "" := by
    intro i e h0
    by_cases hi : i = 1
    · subst hi
      simp [smtpEnvSecondFails] at h0
      subst h0
      decide
    · simp [smtpEnvSecondFails, hi] at h0
  have h := result_record_invariants smtpEnvSecondFails ["a@x", "b@x"]
    ⟨some "b@x", "failed", "550 mailbox unavailable"⟩ (by decide)
  exact ⟨h.1, h.2.2.1,
    h.2.2.2 (fun e he => nomatch he) (fun e he => nomatch he) hsend⟩
